import Mathlib

/-!
Verification development for the code-server update-check subsystem
(src/node/app/update.ts) and the plugin loader (src/node/plugin.ts).

The TypeScript source is shallowly embedded: every effectful collaborator
(settings store, network, JSON parser, clock) is passed in explicitly as an
environment value, and each function returns both its value and the
observable effects (whether a network fetch was attempted, how many
settings writes succeeded, the settings store contents afterwards).
-/

namespace CodeServer

/-- The persisted update record, interface Update of update.ts:
checked is the timestamp the record was produced, version the version string. -/
structure Update where
  checked : Nat
  version : String
deriving DecidableEq

/-- Milliseconds between update checks, field updateInterval of
UpdateHttpProvider: 1000 * 60 * 60 * 24 (24 hours). -/
def updateInterval : Nat := 1000 * 60 * 60 * 24

/-- The fallback record built in the catch branch of the private check
operation: checked now, version unknown. -/
def fallbackU (now : Nat) : Update := ⟨now, ("unknown")⟩

/-- Environment for one run of the private check operation. now is Date.now.
The Bool fields say whether each awaited collaborator call throws:
readErr for settings.read, fetchErr for the network request of the latest
release, parseErr for JSON.parse on the fetched buffer, writeErr for
settings.write. parsedName is the name field of the parsed latest-release
payload when parsing succeeds. -/
structure Env where
  now : Nat
  readErr : Bool
  fetchErr : Bool
  parseErr : Bool
  parsedName : String
  writeErr : Bool

/-- Outcome of the try block of the private check operation: the result of
the try block (an error escapes to the catch), whether the network request
was issued, how many settings writes succeeded, and the settings store
contents afterwards. -/
structure TryOutcome where
  result : Except String Update
  fetched : Bool
  writes : Nat
  storeAfter : Option Update

/-- Outcome of the whole private check operation, after its catch branch:
same trace fields, but the result is always a record. -/
structure CheckOutcome where
  result : Update
  fetched : Bool
  writes : Nat
  storeAfter : Option Update
deriving DecidableEq

/-- The fetch-parse-build-persist path of the check operation
(lines 124-127 of update.ts): request the latest url, JSON.parse the
buffer, build the record from now and the payload name, persist it. Any
throw escapes to the catch of the caller. -/
def fetchFresh (env : Env) (stored : Option Update) : TryOutcome :=
  if env.fetchErr then ⟨.error ("fetch failed"), true, 0, stored⟩
  else if env.parseErr then ⟨.error ("parse failed"), true, 0, stored⟩
  else
    let u : Update := ⟨env.now, env.parsedName⟩
    if env.writeErr then ⟨.error ("write failed"), true, 0, stored⟩
    else ⟨.ok u, true, 1, some u⟩

/-- The try block of the private check operation of update.ts:
read the persisted record unless force is set, return it when it exists
and is fresh (checked plus updateInterval not yet below now), otherwise
run the fetch path. -/
def getUpdateTry (env : Env) (stored : Option Update) (force : Bool) : TryOutcome :=
  let readRes : Except String (Option Update) :=
    if force then .ok none
    else if env.readErr then .error ("read failed") else .ok stored
  match readRes with
  | .error e => ⟨.error e, false, 0, stored⟩
  | .ok none => fetchFresh env stored
  | .ok (some u) =>
    if u.checked + updateInterval < env.now then fetchFresh env stored
    else ⟨.ok u, false, 0, stored⟩

/-- The whole private check operation, method of update.ts named with a
leading underscore: the try block with its catch branch, which converts
any failure into the fallback record. -/
def _getUpdate (env : Env) (stored : Option Update) (force : Bool) : CheckOutcome :=
  let t := getUpdateTry env stored force
  match t.result with
  | .ok u => ⟨u, t.fetched, t.writes, t.storeAfter⟩
  | .error _ => ⟨fallbackU env.now, t.fetched, t.writes, t.storeAfter⟩

/-- The public getUpdate entry of update.ts restricted to one call with no
operation already in flight: throws when the feature is disabled, before
any other work; otherwise runs the check operation. The single-flight
marker logic is modelled separately by ProviderState below. -/
def getUpdate (enabled : Bool) (env : Env) (stored : Option Update) (force : Bool) :
    TryOutcome :=
  if enabled then
    let o := _getUpdate env stored force
    ⟨.ok o.result, o.fetched, o.writes, o.storeAfter⟩
  else ⟨.error ("updates are not enabled"), false, 0, stored⟩

/-! ### Single-flight marker (lines 105-117 of update.ts)

The field update of UpdateHttpProvider holds the promise of the check
operation currently in flight, when any. Promises are modelled by numeric
ids; started counts how many check operations have been started (each one
performs its own fetch pipeline). The event loop runs each synchronous
prefix of getUpdate atomically, so the check-then-set on the marker is one
step. -/

/-- Process-local provider state: the in-flight marker (promise id of the
pending check operation, when any), a fresh-id counter, and the number of
check operations started so far. -/
structure ProviderState where
  inflight : Option Nat
  nextId : Nat
  started : Nat
deriving DecidableEq

/-- The synchronous prefix of getUpdate once enabled (lines 110-116): when
a check operation is in flight, join it regardless of force; otherwise
install a new one and return it. Returns the promise id the caller awaits
and the new state. -/
def getUpdateStep (σ : ProviderState) (force : Bool) : Nat × ProviderState :=
  match σ.inflight with
  | some id => (id, σ)
  | none => (σ.nextId, ⟨some σ.nextId, σ.nextId + 1, σ.started + 1⟩)

/-- The continuation attached to the in-flight promise (line 113): when the
check operation settles, clear the marker. The check operation always
fulfills, since its catch branch returns the fallback record. -/
def settleStep (σ : ProviderState) : ProviderState := ⟨none, σ.nextId, σ.started⟩

/-- A burst of concurrent getUpdate calls: each synchronous prefix runs to
completion before the next (single-threaded event loop, no await before
the marker is installed). Returns the promise ids handed out, in call
order, and the final state. -/
def runCalls (σ : ProviderState) (forces : List Bool) : List Nat × ProviderState :=
  match forces with
  | [] => ([], σ)
  | f :: rest =>
    let p := getUpdateStep σ f
    let r := runCalls p.2 rest
    (p.1 :: r.1, r.2)

/-! ### Redirect-following fetch client (requestResponse, lines 186-218) -/

/-- One HTTP response as observed by the client callback: the status code
when present, the location header when present, and the response body
(modelled as the already accumulated chunk concatenation). -/
structure Response where
  statusCode : Option Nat
  location : Option String
  body : String
deriving DecidableEq

/-- Result of a fetch: the accumulated body, or the message of the
rejection error. -/
inductive FetchResult where
  | ok (body : String)
  | err (msg : String)
deriving DecidableEq

/-- JavaScript truthiness of an optional number: undefined and 0 are falsy. -/
def jsTruthyNat : Option Nat → Bool
  | none => false
  | some n => decide (n ≠ 0)

/-- JavaScript truthiness of an optional string: undefined and the empty
string are falsy. -/
def jsTruthyStr : Option String → Bool
  | none => false
  | some s => decide (s ≠ "")

/-- The redirect condition of requestResponse: statusCode truthy, at least
300, below 400, and a truthy location header. -/
def isRedirect (resp : Response) : Bool :=
  jsTruthyNat resp.statusCode &&
    decide (300 ≤ resp.statusCode.getD 0) &&
    decide (resp.statusCode.getD 0 < 400) &&
    jsTruthyStr resp.location

/-- The rejection condition for a terminal response: statusCode falsy,
below 200, or at least 400. -/
def isBadStatus (resp : Response) : Bool :=
  !jsTruthyNat resp.statusCode ||
    decide (resp.statusCode.getD 0 < 200) ||
    decide (400 ≤ resp.statusCode.getD 0)

/-- The rejection message for a terminal bad response: the uri, a colon,
and the status code, with 500 substituted when the code is falsy. -/
def statusMessage (uri : String) (resp : Response) : String :=
  uri ++ (": ") ++
    (match resp.statusCode with
     | some s => if s = 0 then ("500") else toString s
     | none => ("500"))

/-- The request loop of requestResponse. net maps a uri to the response the
server sends for it; resolve models url.resolve. redirects is the mutable
counter of the source; fuel is the structural-recursion budget, kept equal
to maxRedirects + 1 - redirects, so the fuel-zero branch is unreachable:
the counter check rejects at redirects = maxRedirects + 1, where fuel is
still 1. -/
def requestLoop (net : String → Response) (resolve : String → String → String)
    (maxRedirects : Nat) : Nat → String → Nat → FetchResult
  | 0, _, _ => .err ("reached max redirects")
  | fuel + 1, uri, redirects =>
    let resp := net uri
    if isRedirect resp then
      if maxRedirects < redirects + 1 then .err ("reached max redirects")
      else requestLoop net resolve maxRedirects fuel (resolve uri (resp.location.getD (""))) (redirects + 1)
    else if isBadStatus resp then .err (statusMessage uri resp)
    else .ok resp.body

/-- The fixed redirect bound of requestResponse. -/
def maxRedirects : Nat := 10

/-- requestResponse composed with the body accumulation of request: start
the loop at the given uri with the redirect counter at zero. -/
def requestResponse (net : String → Response) (resolve : String → String → String)
    (uri : String) : FetchResult :=
  requestLoop net resolve maxRedirects (maxRedirects + 1) uri 0

/-! ### Version comparator (isLatestVersion, lines 147-155)

The comparator delegates to the external node-semver library. That library
is modelled here for the plain major.minor.patch core of the semver
grammar: dot-separated numeric identifiers, digits only, no leading
zeroes. A numeric identifier is recognised by a canonical-form check: a
character list parses to n exactly when it is the decimal representation
of n, which rejects empty strings, non-digits and leading zeroes, and
makes parsing injective by construction. -/

/-- Value of a digit list under the usual left fold. -/
def digitsVal (l : List Char) : Nat :=
  l.foldl (fun acc c => acc * 10 + (c.toNat - Char.toNat '0')) 0

/-- Model of node-semver numeric-identifier parsing: the list parses to n
exactly when it is the decimal representation of n. -/
def parseNumericId (l : List Char) : Option Nat :=
  let n := digitsVal l
  if Nat.toDigits 10 n = l then some n else none

/-- Split a character list on a separator; mirrors the usual split with
empty components preserved, so joining with the separator restores the
input. -/
def splitSep (sep : Char) : List Char → List (List Char)
  | [] => [[]]
  | c :: rest =>
    let r := splitSep sep rest
    if c = sep then [] :: r
    else
      match r with
      | [] => [[c]]
      | h :: t => (c :: h) :: t

/-- Join character lists with a separator character between them. -/
def joinSep (sep : Char) : List (List Char) → List Char
  | [] => []
  | x :: xs =>
    match xs with
    | [] => x
    | _ :: _ => x ++ sep :: joinSep sep xs

/-- A parsed semantic version core. -/
structure SemVer where
  major : Nat
  minor : Nat
  patch : Nat
deriving DecidableEq

/-- Model of node-semver parsing restricted to the major.minor.patch core:
exactly three dot-separated numeric identifiers. -/
def semverParse (s : String) : Option SemVer :=
  match (splitSep '.' s.data).map parseNumericId with
  | [some x, some y, some z] => some ⟨x, y, z⟩
  | _ => none

/-- Strict precedence order on parsed versions: lexicographic on
major, minor, patch. -/
def semverLtB (a b : SemVer) : Bool :=
  decide (a.major < b.major) ||
    (decide (a.major = b.major) &&
      (decide (a.minor < b.minor) ||
        (decide (a.minor = b.minor) && decide (a.patch < b.patch))))

/-- Model of the node-semver lt call: throws (none) when either string
does not parse, otherwise compares. -/
def semverLt (a b : String) : Option Bool :=
  match semverParse a, semverParse b with
  | some x, some y => some (semverLtB x y)
  | _, _ => none

/-- isLatestVersion of update.ts: the running version string is equal to
the latest one, or the latest is semver-below it; a throw from the
comparison is caught and turned into true. The running version string is
passed in (the source reads it from package metadata). -/
def isLatestVersion (version : String) (latest : Update) : Bool :=
  if latest.version = version then true
  else
    match semverLt latest.version version with
    | some b => b
    | none => true

/-! ### Status surface (getRoot, JSON branch, lines 74-89) -/

/-- The JSON payload of the status query: the record fields when present,
plus the derived isLatest flag. The disabled short-circuit carries no
record fields. -/
structure StatusJson where
  checked : Option Nat
  version : Option String
  isLatest : Bool
deriving DecidableEq

/-- Outcome of the JSON status query: payload plus the observable effects
of the check operation it may run. -/
structure RootOutcome where
  content : StatusJson
  fetched : Bool
  writes : Nat
  storeAfter : Option Update
deriving DecidableEq

/-- The JSON branch of getRoot: when the feature is disabled, answer
isLatest true immediately; otherwise run the (unforced) check operation
and report its record with the derived isLatest flag. -/
def getRootJson (enabled : Bool) (version : String) (env : Env)
    (stored : Option Update) : RootOutcome :=
  if enabled then
    let o := _getUpdate env stored false
    ⟨⟨some o.result.checked, some o.result.version, isLatestVersion version o.result⟩,
      o.fetched, o.writes, o.storeAfter⟩
  else ⟨⟨none, none, true⟩, false, 0, stored⟩

/-! ### Plugin loader (plugin.ts) -/

/-- Error thrown by loading one plugin directory (require plus activate):
either a module-resolution failure, recognised by its MODULE_NOT_FOUND
code, or anything else, carrying its message. -/
inductive LoadErr where
  | moduleNotFound (msg : String)
  | other (msg : String)

/-- Error thrown by scanning the plugins directory: a missing directory,
recognised by its ENOENT code, or anything else, carrying its message. -/
inductive DirErr where
  | enoent (msg : String)
  | other (msg : String)

/-- One entry of the plugins directory as returned by readdir with file
types. -/
structure DirEntry where
  name : String
  isDir : Bool

/-- Environment for the loader: the readdir outcome for the plugins
directory, and the require-plus-activate outcome for each plugin path. -/
structure PluginEnv where
  readdir : Except DirErr (List DirEntry)
  load : String → Except LoadErr Unit

/-- One log line at its severity. -/
inductive Log where
  | debug (msg : String)
  | warn (msg : String)
deriving DecidableEq

/-- Observable outcome of the loader: which plugin paths activated, and
the log lines emitted. -/
structure PluginOutcome where
  activated : List String
  logs : List Log
deriving DecidableEq

/-- The resolved plugins directory (path.resolve relative to the module
directory), kept abstract. -/
def pluginBase : String := "plugins"

/-- path.join of the plugins directory with an entry name. -/
def joinPath (a b : String) : String := a ++ ("/") ++ b

/-- loadPlugin of plugin.ts: require and activate the directory; catch any
error, logging a warning unless the error code is MODULE_NOT_FOUND, in
which case only a debug line. Never throws. -/
def loadPlugin (env : PluginEnv) (dir : String) : PluginOutcome :=
  match env.load dir with
  | .ok _ => ⟨[dir], [.debug (("Loaded plugin ") ++ dir)]⟩
  | .error (.moduleNotFound m) => ⟨[], [.debug m]⟩
  | .error (.other m) => ⟨[], [.warn m]⟩

/-- The inner scan of plugin.ts with a leading underscore: readdir the
plugins directory (a throw propagates), then load every directory entry
concurrently, skipping non-directories. -/
def _loadPlugins (env : PluginEnv) : Except DirErr PluginOutcome :=
  match env.readdir with
  | .error e => .error e
  | .ok files =>
    let outs := files.map fun f =>
      if f.isDir then loadPlugin env (joinPath pluginBase f.name)
      else (⟨[], []⟩ : PluginOutcome)
    .ok ⟨(outs.map PluginOutcome.activated).flatten, (outs.map PluginOutcome.logs).flatten⟩

/-- loadPlugins of plugin.ts: run the scan; catch any error, silently for
ENOENT, otherwise logging a warning. Never throws. -/
def loadPlugins (env : PluginEnv) : PluginOutcome :=
  match _loadPlugins env with
  | .ok o => o
  | .error (.enoent _) => ⟨[], []⟩
  | .error (.other m) => ⟨[], [.warn m]⟩

/-! ### Helper lemmas and test networks for the fetch client -/

/-- One unfolding step of the request loop, for rewriting. -/
lemma requestLoop_succ (net : String → Response) (resolve : String → String → String)
    (m fuel : Nat) (uri : String) (r : Nat) :
    requestLoop net resolve m (fuel + 1) uri r =
      (let resp := net uri
       if isRedirect resp then
         if m < r + 1 then .err ("reached max redirects")
         else requestLoop net resolve m fuel (resolve uri (resp.location.getD (""))) (r + 1)
       else if isBadStatus resp then .err (statusMessage uri resp)
       else .ok resp.body) := rfl

/-- A server answering every uri with the same response. -/
def constNet (resp : Response) : String → Response := fun _ => resp

/-- A server answering the first uri one way and every other uri another way. -/
def twoStepNet (first : String) (r₁ r₂ : Response) : String → Response :=
  fun u => if u = first then r₁ else r₂

/-- Resolution that takes the location header as the next absolute uri. -/
def chainResolve : String → String → String := fun _ loc => loc

/-- The uri at depth k of the redirect chain. -/
def chainUri (k : Nat) : String := String.mk (List.replicate k 'a')

/-- A server serving a chain of n redirect responses with status c, followed
by a 200 response carrying the final body. -/
def chainNet (c n : Nat) (body : String) : String → Response := fun uri =>
  if uri.length < n then ⟨some c, some (chainUri (uri.length + 1)), ("")⟩
  else ⟨some 200, none, body⟩

lemma chainUri_length (k : Nat) : (chainUri k).length = k := by
  simp [chainUri, String.length]

lemma chainUri_ne_empty (k : Nat) : chainUri (k + 1) ≠ "" := by
  intro h
  have h2 := congrArg String.length h
  rw [chainUri_length] at h2
  exact Nat.succ_ne_zero k h2

/-- Behaviour of the request loop on the chain server, by induction on the
remaining chain length d, with the fuel kept in sync with the redirect
counter. -/
lemma chain_loop (c n : Nat) (body : String) (hc1 : 300 ≤ c) (hc2 : c < 400) :
    ∀ d k r, n = k + d → r ≤ 10 →
      requestLoop (chainNet c n body) chainResolve 10 (11 - r) (chainUri k) r =
        if d + r ≤ 10 then .ok body else .err ("reached max redirects") := by
  intro d
  induction d with
  | zero =>
    intro k r hn hr
    obtain ⟨fuel, hf⟩ : ∃ fuel, 11 - r = fuel + 1 := ⟨10 - r, by omega⟩
    rw [hf, requestLoop_succ]
    have hterm : chainNet c n body (chainUri k) = ⟨some 200, none, body⟩ := by
      simp [chainNet, chainUri_length]
      omega
    rw [if_pos (by omega : 0 + r ≤ 10)]
    simp only [hterm]
    have hR : isRedirect ⟨some 200, none, body⟩ = false := by
      simp [isRedirect, jsTruthyStr]
    have hB : isBadStatus ⟨some 200, none, body⟩ = false := by
      simp [isBadStatus, jsTruthyNat]
    simp [hR, hB]
  | succ d ih =>
    intro k r hn hr
    obtain ⟨fuel, hf⟩ : ∃ fuel, 11 - r = fuel + 1 := ⟨10 - r, by omega⟩
    rw [hf, requestLoop_succ]
    have hred : chainNet c n body (chainUri k) =
        ⟨some c, some (chainUri (k + 1)), ("")⟩ := by
      simp [chainNet, chainUri_length]
      omega
    simp only [hred]
    have hR : isRedirect ⟨some c, some (chainUri (k + 1)), ("")⟩ = true := by
      simp [isRedirect, jsTruthyNat, jsTruthyStr, chainUri_ne_empty k]
      omega
    rw [hR]
    simp only [if_true]
    by_cases hr10 : r = 10
    · subst hr10
      rw [if_pos (by omega : 10 < 10 + 1)]
      rw [if_neg (by omega : ¬(d + 1 + 10 ≤ 10))]
    · rw [if_neg (by omega : ¬(10 < r + 1))]
      have hfuel : fuel = 11 - (r + 1) := by omega
      have hresolve : chainResolve (chainUri k) ((some (chainUri (k + 1))).getD ("")) =
          chainUri (k + 1) := rfl
      rw [hresolve, hfuel, ih (k + 1) (r + 1) (by omega) (by omega)]
      by_cases hle : d + 1 + r ≤ 10
      · rw [if_pos (by omega : d + (r + 1) ≤ 10), if_pos hle]
      · rw [if_neg (by omega : ¬(d + (r + 1) ≤ 10)), if_neg hle]

/-- C5: for a redirect chain of n responses with any redirect status,
followed by a 200 response, the fetch client returns the final body exactly
when n is at most the fixed bound 10, and fails with the max-redirects
error exactly when the redirect counter exceeds the bound; in particular a
chain of exactly 10 redirects succeeds and one of 11 fails. -/
theorem c5_redirect_bound (c n : Nat) (body : String) (hc1 : 300 ≤ c) (hc2 : c < 400) :
    requestResponse (chainNet c n body) chainResolve (chainUri 0) =
      if n ≤ 10 then .ok body else .err ("reached max redirects") := by
  have h := chain_loop c n body hc1 hc2 n 0 0 (by omega) (by omega)
  simp only [Nat.sub_zero, Nat.add_zero] at h
  exact h

/-- Witness for C5 at the boundary: 10 redirects then 200 succeeds with the
final body, 11 redirects fail with the max-redirects error. -/
theorem c5_redirect_bound_witness :
    requestResponse (chainNet 301 10 ("B")) chainResolve (chainUri 0) = .ok ("B") ∧
    requestResponse (chainNet 301 11 ("B")) chainResolve (chainUri 0) =
      .err ("reached max redirects") := by
  constructor
  · have h := c5_redirect_bound 301 10 ("B") (by decide) (by decide)
    simpa using h
  · have h := c5_redirect_bound 301 11 ("B") (by decide) (by decide)
    simpa using h

/-- C6 counterexample: the claim says a 301 response without a location
header is a failure, but the client accepts it and returns its body: the
redirect branch requires a location header, and the rejection branch only
covers status below 200 or at least 400. -/
theorem c6_counterexample :
    requestResponse (constNet ⟨some 301, none, ("redirect-body")⟩) chainResolve ("u") =
      .ok ("redirect-body") := by decide

/-- C6 amended: a terminal status in [200,300) is accepted with its body; a
missing status fails with the 500 placeholder; a nonzero status below 200,
or at least 400, fails with an error carrying the status code; a status in
[300,400) with a nonempty location header is followed as a redirect; and a
status in [300,400) without a location header is accepted, not failed. -/
theorem c6_status_amended (uri l b b₂ : String) (s : Nat) :
    (200 ≤ s → s < 300 →
      requestResponse (constNet ⟨some s, none, b⟩) chainResolve uri = .ok b) ∧
    (requestResponse (constNet ⟨none, none, b⟩) chainResolve uri =
      .err (uri ++ (": ") ++ ("500"))) ∧
    (s ≠ 0 → s < 200 →
      requestResponse (constNet ⟨some s, none, b⟩) chainResolve uri =
        .err (uri ++ (": ") ++ toString s)) ∧
    (400 ≤ s →
      requestResponse (constNet ⟨some s, none, b⟩) chainResolve uri =
        .err (uri ++ (": ") ++ toString s)) ∧
    (300 ≤ s → s < 400 → l ≠ "" → l ≠ ("start") →
      requestResponse (twoStepNet ("start") ⟨some s, some l, b⟩ ⟨some 200, none, b₂⟩)
        chainResolve ("start") = .ok b₂) ∧
    (300 ≤ s → s < 400 →
      requestResponse (constNet ⟨some s, none, b⟩) chainResolve uri = .ok b) := by
  refine ⟨?_, ?_, ?_, ?_, ?_, ?_⟩
  · intro h1 h2
    show requestLoop _ _ 10 (10 + 1) uri 0 = _
    rw [requestLoop_succ]
    have hR : isRedirect ⟨some s, none, b⟩ = false := by
      simp [isRedirect, jsTruthyStr]
    have hB : isBadStatus ⟨some s, none, b⟩ = false := by
      simp [isBadStatus, jsTruthyNat]
      omega
    simp [constNet, hR, hB]
  · show requestLoop _ _ 10 (10 + 1) uri 0 = _
    rw [requestLoop_succ]
    have hR : isRedirect ⟨none, none, b⟩ = false := by
      simp [isRedirect, jsTruthyNat]
    have hB : isBadStatus ⟨none, none, b⟩ = true := by
      simp [isBadStatus, jsTruthyNat]
    simp [constNet, hR, hB, statusMessage]
  · intro h0 h2
    show requestLoop _ _ 10 (10 + 1) uri 0 = _
    rw [requestLoop_succ]
    have hR : isRedirect ⟨some s, none, b⟩ = false := by
      simp [isRedirect, jsTruthyStr]
    have hB : isBadStatus ⟨some s, none, b⟩ = true := by
      simp [isBadStatus, jsTruthyNat]
      omega
    simp [constNet, hR, hB, statusMessage, h0]
  · intro h4
    show requestLoop _ _ 10 (10 + 1) uri 0 = _
    rw [requestLoop_succ]
    have hR : isRedirect ⟨some s, none, b⟩ = false := by
      simp [isRedirect, jsTruthyStr]
    have hB : isBadStatus ⟨some s, none, b⟩ = true := by
      simp [isBadStatus, jsTruthyNat]
      omega
    have h0 : s ≠ 0 := by omega
    simp [constNet, hR, hB, statusMessage, h0]
  · intro h3 h4 hl hlstart
    show requestLoop _ _ 10 (10 + 1) ("start") 0 = _
    rw [requestLoop_succ]
    have hfirst : twoStepNet ("start") ⟨some s, some l, b⟩ ⟨some 200, none, b₂⟩ ("start") =
        ⟨some s, some l, b⟩ := by simp [twoStepNet]
    have hR : isRedirect ⟨some s, some l, b⟩ = true := by
      simp [isRedirect, jsTruthyNat, jsTruthyStr, hl]
      omega
    simp only [hfirst, hR, if_true]
    rw [if_neg (by omega : ¬(10 < 0 + 1))]
    show requestLoop _ _ 10 (9 + 1) l 1 = _
    rw [requestLoop_succ]
    have hsecond : twoStepNet ("start") ⟨some s, some l, b⟩ ⟨some 200, none, b₂⟩ l =
        ⟨some 200, none, b₂⟩ := by simp [twoStepNet, hlstart]
    have hR2 : isRedirect ⟨some 200, none, b₂⟩ = false := by
      simp [isRedirect, jsTruthyStr]
    have hB2 : isBadStatus ⟨some 200, none, b₂⟩ = false := by
      simp [isBadStatus, jsTruthyNat]
    simp [hsecond, hR2, hB2]
  · intro h3 h4
    show requestLoop _ _ 10 (10 + 1) uri 0 = _
    rw [requestLoop_succ]
    have hR : isRedirect ⟨some s, none, b⟩ = false := by
      simp [isRedirect, jsTruthyStr]
    have hB : isBadStatus ⟨some s, none, b⟩ = false := by
      simp [isBadStatus, jsTruthyNat]
      omega
    simp [constNet, hR, hB]

/-- Witness for C6 amended, at status 250, 404, and 301 with and without a
location header. -/
theorem c6_status_amended_witness :
    requestResponse (constNet ⟨some 250, none, ("A")⟩) chainResolve ("u") = .ok ("A") ∧
    requestResponse (constNet ⟨some 404, none, ("A")⟩) chainResolve ("u") = .err ("u: 404") ∧
    requestResponse (twoStepNet ("start") ⟨some 301, some ("next"), ("A")⟩
      ⟨some 200, none, ("done")⟩) chainResolve ("start") = .ok ("done") ∧
    requestResponse (constNet ⟨some 301, none, ("A")⟩) chainResolve ("u") = .ok ("A") := by
  refine ⟨?_, ?_, ?_, ?_⟩
  · exact (c6_status_amended ("u") ("x") ("A") ("A") 250).1 (by decide) (by decide)
  · have h := (c6_status_amended ("u") ("x") ("A") ("A") 404).2.2.2.1 (by decide)
    have e : ("u" ++ (": ") ++ toString 404) = ("u: 404") := by decide
    rw [e] at h
    exact h
  · exact (c6_status_amended ("u") ("next") ("A") ("done") 301).2.2.2.2.1
      (by decide) (by decide) (by decide) (by decide)
  · exact (c6_status_amended ("u") ("x") ("A") ("A") 301).2.2.2.2.2 (by decide) (by decide)

/-! ### Helper lemmas for the version comparator -/

/-- A list accepted as a numeric identifier is the decimal representation
of its value, so numeric-identifier parsing is injective. -/
lemma parseNumericId_eq {l : List Char} {n : Nat} (h : parseNumericId l = some n) :
    l = Nat.toDigits 10 n := by
  simp only [parseNumericId] at h
  by_cases hc : Nat.toDigits 10 (digitsVal l) = l
  · rw [if_pos hc] at h
    obtain rfl : digitsVal l = n := Option.some.inj h
    exact hc.symm
  · rw [if_neg hc] at h
    exact absurd h (by simp)

lemma splitSep_ne_nil (sep : Char) (l : List Char) : splitSep sep l ≠ [] := by
  cases l with
  | nil => simp [splitSep]
  | cons c rest =>
    simp only [splitSep]
    by_cases hc : c = sep
    · simp [hc]
    · rw [if_neg hc]
      cases hr : splitSep sep rest <;> simp

/-- Joining the components of a split with the separator restores the
input list. -/
lemma joinSep_splitSep (sep : Char) (l : List Char) :
    joinSep sep (splitSep sep l) = l := by
  induction l with
  | nil => rfl
  | cons c rest ih =>
    simp only [splitSep]
    obtain ⟨h, t, hr⟩ : ∃ h t, splitSep sep rest = h :: t := by
      cases hq : splitSep sep rest with
      | nil => exact absurd hq (splitSep_ne_nil sep rest)
      | cons h t => exact ⟨h, t, rfl⟩
    have hj : joinSep sep (h :: t) = rest := by rw [← hr]; exact ih
    by_cases hc : c = sep
    · rw [if_pos hc, hr]
      show ([] : List Char) ++ sep :: joinSep sep (h :: t) = c :: rest
      rw [List.nil_append, hj, hc]
    · rw [if_neg hc, hr]
      cases t with
      | nil =>
        show joinSep sep ((c :: h) :: []) = c :: rest
        simp only [joinSep] at hj ⊢
        rw [hj]
      | cons t₀ ts =>
        show joinSep sep ((c :: h) :: t₀ :: ts) = c :: rest
        simp only [joinSep] at hj ⊢
        rw [List.cons_append, hj]

/-- A string accepted by the version parser is canonically determined by
the parsed triple. -/
lemma semverParse_eq {s : String} {v : SemVer} (h : semverParse s = some v) :
    s.data = joinSep '.'
      [Nat.toDigits 10 v.major, Nat.toDigits 10 v.minor, Nat.toDigits 10 v.patch] := by
  unfold semverParse at h
  rcases hq : splitSep '.' s.data with _ | ⟨l₁, _ | ⟨l₂, _ | ⟨l₃, _ | rest⟩⟩⟩ <;>
    rw [hq] at h
  · exact absurd h (by simp)
  · exact absurd h (by simp)
  · exact absurd h (by simp)
  · simp only [List.map] at h
    rcases h₁ : parseNumericId l₁ with _ | x <;> rw [h₁] at h
    · exact absurd h (by simp)
    rcases h₂ : parseNumericId l₂ with _ | y <;> rw [h₂] at h
    · exact absurd h (by simp)
    rcases h₃ : parseNumericId l₃ with _ | z <;> rw [h₃] at h
    · exact absurd h (by simp)
    obtain rfl : (⟨x, y, z⟩ : SemVer) = v := Option.some.inj h
    have e₁ := parseNumericId_eq h₁
    have e₂ := parseNumericId_eq h₂
    have e₃ := parseNumericId_eq h₃
    rw [← e₁, ← e₂, ← e₃, ← hq, joinSep_splitSep]
  · exact absurd h (by simp)

/-- Version parsing is injective: two strings parsing to the same triple
are equal. -/
lemma semverParse_inj {a b : String} {v : SemVer}
    (ha : semverParse a = some v) (hb : semverParse b = some v) : a = b := by
  have h₁ := semverParse_eq ha
  have h₂ := semverParse_eq hb
  exact congrArg String.mk (h₁.trans h₂.symm)

/-- The precedence order is total and asymmetric on distinct triples. -/
lemma semverLtB_total (x y : SemVer) (h : x ≠ y) :
    semverLtB y x = !semverLtB x y := by
  obtain ⟨a₁, b₁, c₁⟩ := x
  obtain ⟨a₂, b₂, c₂⟩ := y
  have h2 : ¬(a₁ = a₂ ∧ b₁ = b₂ ∧ c₁ = c₂) := by
    intro hh
    obtain ⟨u, w, e⟩ := hh
    subst u; subst w; subst e
    exact h rfl
  cases hb : semverLtB ⟨a₁, b₁, c₁⟩ ⟨a₂, b₂, c₂⟩ <;>
    cases hb2 : semverLtB ⟨a₂, b₂, c₂⟩ ⟨a₁, b₁, c₁⟩ <;>
    simp_all [semverLtB] <;> omega

/-- C7: for version strings that both parse as semantic versions, the
comparator answers true on equal strings, and in general answers exactly
whether the latest version is not strictly greater than the running one. -/
theorem c7_comparator (ver lat : String) (c : Nat) (x y : SemVer)
    (hv : semverParse ver = some x) (hl : semverParse lat = some y) :
    (lat = ver → isLatestVersion ver ⟨c, lat⟩ = true) ∧
    isLatestVersion ver ⟨c, lat⟩ = !semverLtB x y := by
  constructor
  · intro he
    simp [isLatestVersion, he]
  · unfold isLatestVersion
    by_cases he : lat = ver
    · rw [if_pos he]
      subst he
      rw [hv] at hl
      obtain rfl : x = y := Option.some.inj hl
      have hirr : semverLtB x x = false := by simp [semverLtB]
      rw [hirr]
      rfl
    · rw [if_neg he]
      have hm : semverLt lat ver = some (semverLtB y x) := by
        unfold semverLt
        rw [hl, hv]
      rw [hm]
      have hxy : x ≠ y := by
        intro hxy
        exact he (semverParse_inj hl (hxy ▸ hv))
      exact semverLtB_total x y hxy

/-- Witness for C7 at the spec examples: running 1.3.0 against latest 1.2.0
is latest, running 1.2.0 against latest 1.3.0 is not. -/
theorem c7_comparator_witness :
    isLatestVersion ("1.3.0") ⟨0, ("1.2.0")⟩ = true ∧
    isLatestVersion ("1.2.0") ⟨0, ("1.3.0")⟩ = false := by
  constructor
  · have h := (c7_comparator ("1.3.0") ("1.2.0") 0 ⟨1, 3, 0⟩ ⟨1, 2, 0⟩
      (by decide) (by decide)).2
    rw [h]
    decide
  · have h := (c7_comparator ("1.2.0") ("1.3.0") 0 ⟨1, 2, 0⟩ ⟨1, 3, 0⟩
      (by decide) (by decide)).2
    rw [h]
    decide

/-- C8: when either version string fails to parse and the strings are not
equal, the comparator fails open and answers true instead of erroring. -/
theorem c8_fail_open (ver lat : String) (c : Nat)
    (hp : semverParse ver = none ∨ semverParse lat = none)
    (hne : lat ≠ ver) :
    isLatestVersion ver ⟨c, lat⟩ = true := by
  unfold isLatestVersion
  rw [if_neg hne]
  unfold semverLt
  rcases h1 : semverParse lat with _ | x
  · simp
  · rcases h2 : semverParse ver with _ | y
    · simp
    · rcases hp with h | h
      · rw [h] at h2
        exact absurd h2 (by simp)
      · rw [h] at h1
        exact absurd h1 (by simp)

/-- Witness for C8 at the spec example: a latest version that is not a
semantic version is reported as already latest. -/
theorem c8_fail_open_witness : isLatestVersion ("1.2.0") ⟨0, ("not-a-version")⟩ = true :=
  c8_fail_open ("1.2.0") ("not-a-version") 0 (Or.inr (by decide)) (by decide)

/-! ### Single-flight and disabled-feature theorems -/

/-- While a check operation is in flight, every further call joins it
without changing the state. -/
lemma runCalls_inflight (σ : ProviderState) (i : Nat) (h : σ.inflight = some i) :
    ∀ forces : List Bool, runCalls σ forces = (List.replicate forces.length i, σ) := by
  intro forces
  induction forces with
  | nil => simp [runCalls]
  | cons f rest ih =>
    simp [runCalls, getUpdateStep, h, ih]
    rfl

/-- C2: while a check operation is in flight, every getUpdate call, whatever
its force argument, is handed the same pending promise and the state is
unchanged, so no second fetch starts; the marker is cleared when the
operation settles; and a nonempty burst of concurrent calls from an idle
state starts exactly one check operation, with every call handed the same
promise. -/
theorem c2_single_flight (σ : ProviderState) (id : Nat) (force : Bool)
    (forces : List Bool) :
    (σ.inflight = some id → getUpdateStep σ force = (id, σ)) ∧
    ((settleStep σ).inflight = none) ∧
    (σ.inflight = none → forces ≠ [] →
      (runCalls σ forces).1 = List.replicate forces.length σ.nextId ∧
      (runCalls σ forces).2.started = σ.started + 1) := by
  refine ⟨fun h => by simp [getUpdateStep, h], rfl, fun h hne => ?_⟩
  cases forces with
  | nil => exact absurd rfl hne
  | cons f rest =>
    have hstep : getUpdateStep σ f = (σ.nextId, ⟨some σ.nextId, σ.nextId + 1, σ.started + 1⟩) := by
      simp [getUpdateStep, h]
    have hrest := runCalls_inflight ⟨some σ.nextId, σ.nextId + 1, σ.started + 1⟩ σ.nextId rfl rest
    constructor
    · show (getUpdateStep σ f).1 :: (runCalls (getUpdateStep σ f).2 rest).1 = _
      rw [hstep, hrest]
      rfl
    · show (runCalls (getUpdateStep σ f).2 rest).2.started = σ.started + 1
      rw [hstep, hrest]

/-- Witness for C2: a call joining an in-flight operation, and a burst of
three concurrent calls from idle handing out one shared promise and
starting one operation. -/
theorem c2_single_flight_witness :
    getUpdateStep ⟨some 5, 7, 3⟩ true = (5, ⟨some 5, 7, 3⟩) ∧
    (runCalls ⟨none, 0, 0⟩ [false, true, false]).1 = [0, 0, 0] ∧
    (runCalls ⟨none, 0, 0⟩ [false, true, false]).2.started = 1 := by
  refine ⟨(c2_single_flight ⟨some 5, 7, 3⟩ 5 true []).1 rfl, ?_, ?_⟩
  · have h := (c2_single_flight ⟨none, 0, 0⟩ 0 false [false, true, false]).2.2 rfl
      (by simp)
    rw [h.1]
    rfl
  · exact ((c2_single_flight ⟨none, 0, 0⟩ 0 false [false, true, false]).2.2 rfl
      (by simp)).2

/-- C9: with the feature administratively disabled, the JSON status query
answers isLatest true with no record fields, no network fetch, no settings
write and an untouched store; and getUpdate, forced or not, fails with the
not-enabled error with no network fetch, no write and an untouched store. -/
theorem c9_disabled (env : Env) (stored : Option Update) (force : Bool)
    (version : String) :
    getRootJson false version env stored = ⟨⟨none, none, true⟩, false, 0, stored⟩ ∧
    getUpdate false env stored force =
      ⟨.error ("updates are not enabled"), false, 0, stored⟩ :=
  ⟨rfl, rfl⟩

/-! ### Helper lemmas for the cache controller -/

/-- The catch branch leaves the trace fields of the try block unchanged. -/
lemma _getUpdate_trace (env : Env) (stored : Option Update) (force : Bool) :
    (_getUpdate env stored force).fetched = (getUpdateTry env stored force).fetched ∧
    (_getUpdate env stored force).writes = (getUpdateTry env stored force).writes ∧
    (_getUpdate env stored force).storeAfter = (getUpdateTry env stored force).storeAfter := by
  cases hres : (getUpdateTry env stored force).result <;>
    simp [_getUpdate, hres]

/-- A forced check skips the settings read and goes straight to the fetch
path. -/
lemma getUpdateTry_force (env : Env) (stored : Option Update) :
    getUpdateTry env stored true = fetchFresh env stored := rfl

/-- The fetch path always issues the network request, on every outcome. -/
lemma fetchFresh_fetched (env : Env) (stored : Option Update) :
    (fetchFresh env stored).fetched = true := by
  rcases env with ⟨now, rE, fE, pE, pN, wE⟩
  cases fE <;> cases pE <;> cases wE <;> rfl

/-- An unforced check with a successful read and no stored record runs the
fetch path. -/
lemma getUpdateTry_none (env : Env) (h1 : env.readErr = false) :
    getUpdateTry env none false = fetchFresh env none := by
  simp [getUpdateTry, h1]

/-- An unforced check with a successful read and a stale record runs the
fetch path. -/
lemma getUpdateTry_stale (env : Env) (u : Update) (h1 : env.readErr = false)
    (h2 : u.checked + updateInterval < env.now) :
    getUpdateTry env (some u) false = fetchFresh env (some u) := by
  simp [getUpdateTry, h1, h2]

/-- An unforced check with a successful read and a record whose age has not
strictly passed the interval returns the record with no fetch and no write. -/
lemma getUpdateTry_fresh (env : Env) (u : Update) (h1 : env.readErr = false)
    (h2 : ¬(u.checked + updateInterval < env.now)) :
    getUpdateTry env (some u) false = ⟨.ok u, false, 0, some u⟩ := by
  simp [getUpdateTry, h1, h2]

/-- Environment hitting the TTL boundary exactly: now equals the record age
plus the interval for a record checked at 0. -/
def envBoundary : Env := ⟨updateInterval, false, false, false, ("1.0.0"), false⟩

/-- Environment in which the settings read fails while a fresh record is
persisted. -/
def envReadFail : Env := ⟨10, true, false, false, ("1.0.0"), false⟩

/-- C1 counterexample. First half: a persisted record whose age is exactly
the TTL (so at least the TTL, where the claim demands a fetch) is served
from the store with no fetch, because the source compares strictly. Second
half: a persisted record fresher than the TTL (where the claim demands it
be returned) is not returned when the settings read fails; the fallback is
returned instead. -/
theorem c1_counterexample :
    (_getUpdate envBoundary (some ⟨0, ("0.9.0")⟩) false).fetched = false ∧
    updateInterval ≤ envBoundary.now - (0 : Nat) ∧
    envReadFail.now - (0 : Nat) < updateInterval ∧
    (_getUpdate envReadFail (some ⟨0, ("0.9.0")⟩) false).result =
      fallbackU envReadFail.now := by decide

/-- C1 amended: a forced check always fetches and neither reads nor depends
on the persisted record; an unforced check whose settings read succeeds
returns a persisted record with no fetch and no write whenever its age is
at most the TTL (strictly less is sufficient but not necessary), and
fetches exactly when no record is persisted or the record age strictly
exceeds the TTL. -/
theorem c1_ttl_amended (env : Env) (stored stored₂ : Option Update) (b : Bool)
    (u : Update) :
    ((_getUpdate env stored true).fetched = true) ∧
    ((_getUpdate env stored true).result =
      (_getUpdate { env with readErr := b } stored₂ true).result) ∧
    (env.readErr = false → stored = some u → env.now ≤ u.checked + updateInterval →
      _getUpdate env stored false = ⟨u, false, 0, stored⟩) ∧
    (env.readErr = false →
      ((_getUpdate env stored false).fetched = true ↔
        stored = none ∨ ∃ v, stored = some v ∧ v.checked + updateInterval < env.now)) := by
  refine ⟨?_, ?_, ?_, ?_⟩
  · rw [(_getUpdate_trace env stored true).1, getUpdateTry_force, fetchFresh_fetched]
  · rcases env with ⟨now, rE, fE, pE, pN, wE⟩
    cases fE <;> cases pE <;> cases wE <;> rfl
  · intro h1 h2 h3
    subst h2
    have hfresh := getUpdateTry_fresh env u h1 (by omega)
    simp [_getUpdate, hfresh]
  · intro h1
    rw [(_getUpdate_trace env stored false).1]
    rcases stored with _ | v
    · rw [getUpdateTry_none env h1, fetchFresh_fetched]
      simp
    · by_cases hst : v.checked + updateInterval < env.now
      · rw [getUpdateTry_stale env v h1 hst, fetchFresh_fetched]
        simp [hst]
      · rw [getUpdateTry_fresh env v h1 hst]
        simp [hst]

/-- Witness for C1 amended: at the exact TTL boundary the stored record is
returned untouched with no fetch, and with an empty store a fetch happens. -/
theorem c1_ttl_amended_witness :
    _getUpdate envBoundary (some ⟨0, ("0.9.0")⟩) false =
      ⟨⟨0, ("0.9.0")⟩, false, 0, some ⟨0, ("0.9.0")⟩⟩ ∧
    (_getUpdate envBoundary none false).fetched = true := by
  constructor
  · exact (c1_ttl_amended envBoundary (some ⟨0, ("0.9.0")⟩) none false
      ⟨0, ("0.9.0")⟩).2.2.1 rfl rfl (by decide)
  · exact ((c1_ttl_amended envBoundary none none false ⟨0, ("0.9.0")⟩).2.2.2 rfl).mpr
      (Or.inl rfl)

/-- C3: the enabled getUpdate never fails: its result is always the record
produced by the check operation, and whenever the try block of the check
operation throws (read, fetch, parse or write failure), the catch branch
converts the failure into the fallback record checked now, version unknown,
which is what the caller receives. -/
theorem c3_never_fails (env : Env) (stored : Option Update) (force : Bool) :
    (getUpdate true env stored force).result = .ok ((_getUpdate env stored force).result) ∧
    (∀ e, (getUpdateTry env stored force).result = .error e →
      (_getUpdate env stored force).result = fallbackU env.now) := by
  refine ⟨rfl, fun e he => ?_⟩
  simp [_getUpdate, he]

/-- Witness for C3: a network failure during an unforced check with an empty
store yields the fallback record. -/
theorem c3_never_fails_witness :
    (_getUpdate ⟨0, false, true, false, (""), false⟩ none false).result = fallbackU 0 :=
  (c3_never_fails ⟨0, false, true, false, (""), false⟩ none false).2 ("fetch failed") rfl

/-- C4: the catch branch persists nothing beyond what the try block did; a
failed try block has performed no settings write and left the store
unchanged; a successful try block that fetched has written exactly once,
storing the newly built record which is also the one returned; and a
successful try block that did not fetch wrote nothing and left the store
unchanged. -/
theorem c4_store_frame (env : Env) (stored : Option Update) (force : Bool) :
    ((_getUpdate env stored force).writes = (getUpdateTry env stored force).writes ∧
     (_getUpdate env stored force).storeAfter = (getUpdateTry env stored force).storeAfter) ∧
    (∀ e, (getUpdateTry env stored force).result = .error e →
      (getUpdateTry env stored force).writes = 0 ∧
      (getUpdateTry env stored force).storeAfter = stored) ∧
    (∀ w, (getUpdateTry env stored force).result = .ok w →
      ((getUpdateTry env stored force).fetched = true →
        (getUpdateTry env stored force).writes = 1 ∧
        w = ⟨env.now, env.parsedName⟩ ∧
        (getUpdateTry env stored force).storeAfter = some w) ∧
      ((getUpdateTry env stored force).fetched = false →
        (getUpdateTry env stored force).writes = 0 ∧
        (getUpdateTry env stored force).storeAfter = stored)) := by
  refine ⟨⟨(_getUpdate_trace env stored force).2.1, (_getUpdate_trace env stored force).2.2⟩,
    ?_, ?_⟩
  all_goals
    rcases env with ⟨now, rE, fE, pE, pN, wE⟩
    cases force <;> cases rE <;> cases fE <;> cases pE <;> cases wE <;>
      rcases stored with _ | v <;>
      simp [getUpdateTry, fetchFresh] <;>
      (try split) <;> simp_all

/-- Witness for C4: a stale record with a failing fetch leaves the store
unchanged with no write; a successful fetch into an empty store writes the
new record exactly once. -/
theorem c4_store_frame_witness :
    ((getUpdateTry ⟨999999999, false, true, false, (""), false⟩ (some ⟨0, ("v1")⟩) false).writes = 0 ∧
     (getUpdateTry ⟨999999999, false, true, false, (""), false⟩ (some ⟨0, ("v1")⟩) false).storeAfter =
       some ⟨0, ("v1")⟩) ∧
    ((getUpdateTry ⟨7, false, false, false, ("2.0.0"), false⟩ none false).writes = 1 ∧
     (getUpdateTry ⟨7, false, false, false, ("2.0.0"), false⟩ none false).storeAfter =
       some ⟨7, ("2.0.0")⟩) := by
  constructor
  · exact (c4_store_frame ⟨999999999, false, true, false, (""), false⟩
      (some ⟨0, ("v1")⟩) false).2.1 ("fetch failed") rfl
  · have h := ((c4_store_frame ⟨7, false, false, false, ("2.0.0"), false⟩ none false).2.2
      ⟨7, ("2.0.0")⟩ rfl).1 rfl
    exact ⟨h.1, h.2.2⟩

/-! ### Plugin loader theorem -/

/-- Whether one require-plus-activate outcome succeeded. -/
def loadOk (res : Except LoadErr Unit) : Bool :=
  match res with
  | .ok _ => true
  | .error _ => false

/-- A warning appears among the logs of a directory scan exactly for the
directory entries whose load fails with an error other than
MODULE_NOT_FOUND. -/
lemma warn_mem_scan (env : PluginEnv) (m : String) (files : List DirEntry) :
    ((Log.warn m) ∈ (List.map PluginOutcome.logs (List.map (fun f =>
        if f.isDir = true then loadPlugin env (joinPath pluginBase f.name)
        else (⟨[], []⟩ : PluginOutcome)) files)).flatten ↔
      ∃ f ∈ files, f.isDir = true ∧
        env.load (joinPath pluginBase f.name) = .error (.other m)) := by
  induction files with
  | nil => simp
  | cons f rest ih =>
    simp only [List.map_cons, List.flatten_cons, List.mem_append, List.mem_cons, ih]
    cases hd : f.isDir
    · simp [hd]
    · cases hl : env.load (joinPath pluginBase f.name) with
      | ok u => simp [hd, hl, loadPlugin]
      | error err =>
        cases err with
        | moduleNotFound msg => simp [hd, hl, loadPlugin]
        | other msg =>
          simp [hd, hl, loadPlugin]
          constructor
          · rintro (h | h)
            · exact Or.inl h.symm
            · exact Or.inr h
          · rintro (h | h)
            · exact Or.inl h.symm
            · exact Or.inr h

/-- C10: the loader always resolves, for every filesystem and module-load
outcome. A missing plugins directory (ENOENT) yields no activation and no
log line; any other directory-scan error yields only a warning; with a
readable directory, exactly the directory entries whose load succeeds are
activated, independently of failures of the others; and a warning is
logged exactly for the per-plugin errors that are not MODULE_NOT_FOUND,
so MODULE_NOT_FOUND plugins are skipped with only a debug line. -/
theorem c10_plugins (load : String → Except LoadErr Unit) (files : List DirEntry)
    (e m : String) :
    loadPlugins ⟨.error (.enoent e), load⟩ = ⟨[], []⟩ ∧
    loadPlugins ⟨.error (.other m), load⟩ = ⟨[], [.warn m]⟩ ∧
    (loadPlugins ⟨.ok files, load⟩).activated =
      (files.filter fun f => f.isDir && loadOk (load (joinPath pluginBase f.name))).map
        (fun f => joinPath pluginBase f.name) ∧
    ((Log.warn m) ∈ (loadPlugins ⟨.ok files, load⟩).logs ↔
      ∃ f ∈ files, f.isDir = true ∧
        load (joinPath pluginBase f.name) = .error (.other m)) := by
  refine ⟨rfl, rfl, ?_, ?_⟩
  · induction files with
    | nil => rfl
    | cons f rest ih =>
      simp only [loadPlugins, _loadPlugins, List.map_cons, List.flatten_cons,
        List.filter_cons] at ih ⊢
      cases hd : f.isDir
      · simpa [hd] using ih
      · cases hl : load (joinPath pluginBase f.name) with
        | ok u => simpa [hd, hl, loadPlugin, loadOk] using ih
        | error err =>
          cases err with
          | moduleNotFound msg => simpa [hd, hl, loadPlugin, loadOk] using ih
          | other msg => simpa [hd, hl, loadPlugin, loadOk] using ih
  · have h := warn_mem_scan ⟨.ok files, load⟩ m files
    simpa [loadPlugins, _loadPlugins] using h

end CodeServer
